import Mathlib

/-!
Verification of the rust-learning chapter 16 examples and the concurrency
primitives toolkit they illustrate: thread spawn and join, mpsc channels,
and a mutex-guarded shared counter behind an atomically reference-counted
handle. Pure data transformations are embedded directly from the source
functions in src/rust-learning-ch16/src; the standard-library primitives
the snippets call (mpsc channel, Mutex, JoinHandle) are not part of the
repository sources, so their semantics is modelled from the spec and
stated as such on each definition. Concurrency is modelled by a small-step
interleaving relation over explicit system states.
-/

set_option autoImplicit false

namespace Ch16

/-! ### One-shot / multi-producer channel model -/

/-- Modelled from the spec: the failure returned by send when no Receiver
remains (the mpsc implementation is in the Rust standard library, not in
the repository sources). -/
inductive SendError : Type
  | sendError
deriving DecidableEq

/-- Modelled from the spec: a channel is an internal FIFO buffer together
with the number of live Senders and whether the unique Receiver is still
alive. -/
structure Channel (α : Type) where
  buffer : List α
  senders : Nat
  receiverAlive : Bool
deriving DecidableEq

/-- Modelled from the spec: what one call to recv observes, namely the next
message in FIFO order, a closed-channel failure (RecvClosed) when the
buffer is empty and no Sender remains, or blocking when the buffer is
empty but a Sender is still alive. -/
inductive RecvResult (α : Type) : Type
  | received (m : α) (rest : Channel α)
  | closed
  | blocked
deriving DecidableEq

/-- Modelled from the spec: create a channel with one Sender, one live
Receiver and an empty buffer. -/
def Channel.new (α : Type) : Channel α :=
  { buffer := [], senders := 1, receiverAlive := true }

/-- Modelled from the spec: send enqueues the message at the back of the
FIFO buffer and returns immediately, or fails with SendError when the
Receiver has been dropped. -/
def Channel.send {α : Type} (c : Channel α) (m : α) : Except SendError (Channel α) :=
  if c.receiverAlive then Except.ok { c with buffer := c.buffer ++ [m] }
  else Except.error SendError.sendError

/-- Modelled from the spec: recv takes the next message in FIFO order,
fails with RecvClosed when the channel is empty and all Senders are
dropped, and blocks when it is empty but a Sender remains. -/
def Channel.recv {α : Type} (c : Channel α) : RecvResult α :=
  match c.buffer with
  | m :: rest => RecvResult.received m { c with buffer := rest }
  | [] => if c.senders = 0 then RecvResult.closed else RecvResult.blocked

/-- Modelled from the spec: dropping the unique Receiver closes the
channel for send purposes. -/
def Channel.dropReceiver {α : Type} (c : Channel α) : Channel α :=
  { c with receiverAlive := false }

/-- Send a whole list of messages in order through the channel. -/
def sendAll {α : Type} (c : Channel α) : List α → Except SendError (Channel α)
  | [] => Except.ok c
  | m :: ms =>
    match c.send m with
    | Except.ok c2 => sendAll c2 ms
    | Except.error e => Except.error e

/-- Receive k messages in order; fails if any recv does not deliver. -/
def recvK {α : Type} (c : Channel α) : Nat → Option (List α)
  | 0 => some []
  | Nat.succ k =>
    match c.recv with
    | RecvResult.received m c2 => Option.map (fun l => m :: l) (recvK c2 k)
    | RecvResult.closed => none
    | RecvResult.blocked => none

/-- Embedding of recover_channel (chapter162.rs, Example 16-8): a spawned
unit sends the string hi, the main unit calls recv. The recv blocks until
the message is available, so the delivered schedule has the send before
the observing recv. -/
def recover_channel_run : Option String :=
  match (Channel.new String).send "hi" with
  | Except.ok c1 =>
    match c1.recv with
    | RecvResult.received m _ => some m
    | RecvResult.closed => none
    | RecvResult.blocked => none
  | Except.error _ => none

/-- Outcome of the spawned unit of move_channel: either the send
succeeded, or send returned SendError and the unwrap panicked. -/
inductive SpawnedOutcome : Type
  | sentOk
  | unwrapPanicked
deriving DecidableEq

/-- Embedding of move_channel (chapter162.rs, Example 16-7): the Receiver
is never read and is dropped when the function returns. The Boolean
schedule says whether that drop happens before the spawned unit calls
send. The second component records that the driver itself returns
normally in either schedule. -/
def move_channel_run (rxDroppedFirst : Bool) : SpawnedOutcome × Bool :=
  let c0 := Channel.new String
  let c1 := if rxDroppedFirst then c0.dropReceiver else c0
  match c1.send "hi" with
  | Except.ok _ => (SpawnedOutcome.sentOk, true)
  | Except.error _ => (SpawnedOutcome.unwrapPanicked, true)

/-! ### Thread handle and join model -/

/-- Modelled from the spec: the completion state of an execution unit,
either completed with a value or failed by panic or abort. -/
inductive Completion (α : Type) : Type
  | completed (v : α)
  | panicked

/-- Modelled from the spec: the failure join reports when the joined task
panicked or aborted. -/
inductive JoinError : Type
  | joinError
deriving DecidableEq

/-- Modelled from the spec: a handle owning a completed execution unit at
the instant join returns, carrying the completion of its task. -/
structure JoinHandle (α : Type) where
  task : Completion α

/-- Modelled from the spec: join blocks until the unit completes and then
reports its completion, the produced value on normal completion and
JoinError when the task panicked or aborted. -/
def JoinHandle.join {α : Type} (h : JoinHandle α) : Except JoinError α :=
  match h.task with
  | Completion.completed v => Except.ok v
  | Completion.panicked => Except.error JoinError.joinError

/-- Modelled from the spec: join consumes ownership of the handle. The
slot is none once the handle has been moved out of; joining an already
consumed slot is a runtime error. -/
def joinOwned {α : Type} (slot : Option (JoinHandle α)) :
    Except JoinError α × Option (JoinHandle α) :=
  match slot with
  | some h => (h.join, none)
  | none => (Except.error JoinError.joinError, none)

/-! ### Mutex model and call_mutex -/

/-- Modelled from the spec: a mutual-exclusion lock wrapping a stored
value; locked records whether some execution unit currently holds it. -/
structure Mutex (α : Type) where
  data : α
  locked : Bool
deriving DecidableEq

/-- Modelled from the spec: a fresh mutex is unlocked. -/
def Mutex.new {α : Type} (a : α) : Mutex α :=
  { data := a, locked := false }

/-- Modelled from the spec: acquiring the lock succeeds exactly when it is
free; the returned mutex is the locked view handed to the guard. -/
def Mutex.tryAcquire {α : Type} (m : Mutex α) : Option (Mutex α) :=
  if m.locked then none else some { m with locked := true }

/-- Assignment through the guard: store a new value while holding the
lock. -/
def guardStore {α : Type} (m : Mutex α) (a : α) : Mutex α :=
  { m with data := a }

/-- Modelled from the spec: dropping the guard at the end of its scope
releases the lock. -/
def guardDrop {α : Type} (m : Mutex α) : Mutex α :=
  { m with locked := false }

/-- Embedding of call_mutex (chapter163.rs): create a mutex holding 5,
lock it in an inner scope, assign 6 through the guard, and drop the guard
at the end of the scope. Returns the mutex state after the inner scope, or
none if the lock acquisition could not succeed. -/
def call_mutex : Option (Mutex Nat) :=
  match (Mutex.new 5).tryAcquire with
  | some g => some (guardDrop (guardStore g 6))
  | none => none

/-- Debug-style observation of a mutex as the final println of call_mutex
performs it: a non-blocking try-lock read that sees the stored value
exactly when the lock is free. -/
def mutexDebugView {α : Type} (m : Mutex α) : Option α :=
  if m.locked then none else some m.data

/-! ### Interleaving semantics of the shared counter (atom_ref) -/

/-- Local state of one counter-incrementing execution unit: not yet in its
critical section, inside the critical section holding the lock, finished
after releasing the lock normally (its increment applied), or panicked
while holding the lock (the guard drop on unwinding released the lock). -/
inductive TState : Type
  | notStarted
  | inCS
  | finished
  | panicked
deriving DecidableEq

/-- Global state of the system of atom_ref (chapter163.rs): the counter
value behind the mutex, which unit currently holds the lock if any, and
the local state of each of the n units. -/
structure SysState (n : Nat) where
  counter : Nat
  lockHolder : Option (Fin n)
  threads : Fin n → TState

/-- Initial state of atom_ref generalized to any initial counter value:
counter at c0, lock free, no unit started. -/
def initState (n c0 : Nat) : SysState n :=
  { counter := c0, lockHolder := none, threads := fun _ => TState.notStarted }

/-- One interleaving step, faithful to the source critical section
`let mut num = counter.lock().unwrap(); *num += 1;`: a unit acquires the
lock only when it is free; while it holds the lock no other unit can
enter; on the normal exit path the guard drop releases the lock with the
increment applied; on the panic exit path the guard drop on unwinding
releases the lock without applying the increment. -/
inductive Step (n : Nat) : SysState n → SysState n → Prop
  | acquire (s : SysState n) (i : Fin n)
      (hfree : s.lockHolder = none) (hready : s.threads i = TState.notStarted) :
      Step n s { counter := s.counter, lockHolder := some i,
                 threads := fun j => if j = i then TState.inCS else s.threads j }
  | releaseInc (s : SysState n) (i : Fin n)
      (hhold : s.lockHolder = some i) (hcs : s.threads i = TState.inCS) :
      Step n s { counter := s.counter + 1, lockHolder := none,
                 threads := fun j => if j = i then TState.finished else s.threads j }
  | releasePanic (s : SysState n) (i : Fin n)
      (hhold : s.lockHolder = some i) (hcs : s.threads i = TState.inCS) :
      Step n s { counter := s.counter, lockHolder := none,
                 threads := fun j => if j = i then TState.panicked else s.threads j }

/-- States reachable from the initial state under any interleaving the
scheduler may choose. -/
inductive Reachable (n c0 : Nat) : SysState n → Prop
  | init : Reachable n c0 (initState n c0)
  | step {s t : SysState n} : Reachable n c0 s → Step n s t → Reachable n c0 t

/-- Number of units that have completed their increment normally. -/
def doneCount {n : Nat} (s : SysState n) : Nat :=
  (Finset.univ.filter (fun i => s.threads i = TState.finished)).card

/-- State after the first k units have each run their whole critical
section to normal completion, one after the other. -/
def seqState (n c0 k : Nat) : SysState n :=
  { counter := c0 + k, lockHolder := none,
    threads := fun j => if (j : Nat) < k then TState.finished else TState.notStarted }

/-- Concrete one-unit state in which the single unit panicked inside its
critical section and the unwinding guard drop released the lock. -/
def panicState : SysState 1 :=
  { counter := 0, lockHolder := none, threads := fun _ => TState.panicked }

/-- Final line printed by atom_ref: `println!("Result: ...")` applied to
the counter value read after all joins. -/
def resultLine (c : Nat) : String :=
  "Result: " ++ toString c

/-! ### Driver programs and their join discipline -/

/-- Abstract record of the driver-visible actions of each example
function: spawning a unit with a handle id, joining a handle id, and
reading the final shared state (the final println of atom_ref). -/
inductive DriverAction : Type
  | spawnU (id : Nat)
  | joinU (id : Nat)
  | readFinalState
deriving DecidableEq, BEq

/-- Whether an action is the read of the final shared state. -/
def isRead : DriverAction → Bool
  | DriverAction.readFinalState => true
  | _ => false

/-- Handle ids spawned by a driver program. -/
def spawnedIds : List DriverAction → List Nat
  | [] => []
  | DriverAction.spawnU i :: rest => i :: spawnedIds rest
  | _ :: rest => spawnedIds rest

/-- Handle ids joined by a driver program. -/
def joinedIds : List DriverAction → List Nat
  | [] => []
  | DriverAction.joinU i :: rest => i :: joinedIds rest
  | _ :: rest => joinedIds rest

/-- Prefix of a driver program before it first reads final state; the
whole program when it terminates without reading final state. -/
def beforeRead (p : List DriverAction) : List DriverAction :=
  p.takeWhile (fun a => !(isRead a))

/-- A driver joins all its handles when every handle id it spawns is
joined before it reads final state or terminates. -/
def driverJoinsAll (p : List DriverAction) : Bool :=
  (spawnedIds p).all (fun i => (joinedIds (beforeRead p)).contains i)

/-- Driver actions of spawn_thread (chapter161.rs): one unit is spawned
and its handle is discarded without a join. -/
def spawn_thread_actions : List DriverAction :=
  [DriverAction.spawnU 0]

/-- Driver actions of waiting_thread (chapter161.rs): one unit is spawned
and its handle joined before the function returns. -/
def waiting_thread_actions : List DriverAction :=
  [DriverAction.spawnU 0, DriverAction.joinU 0]

/-- Driver actions of handle_thread (chapter161.rs): one unit is spawned
with a moved vector and its handle joined. -/
def handle_thread_actions : List DriverAction :=
  [DriverAction.spawnU 0, DriverAction.joinU 0]

/-- Driver actions of move_channel (chapter162.rs): one sending unit is
spawned and never joined. -/
def move_channel_actions : List DriverAction :=
  [DriverAction.spawnU 0]

/-- Driver actions of recover_channel (chapter162.rs): one sending unit is
spawned, then the main unit reads the received value; the handle is never
joined. -/
def recover_channel_actions : List DriverAction :=
  [DriverAction.spawnU 0, DriverAction.readFinalState]

/-- Driver actions of atom_ref (chapter163.rs): ten units are spawned in
the first loop, all ten handles are joined in the second loop, and only
then is the final counter read and printed. -/
def atom_ref_actions : List DriverAction :=
  ((List.range 10).map DriverAction.spawnU)
    ++ ((List.range 10).map DriverAction.joinU)
    ++ [DriverAction.readFinalState]

/-! ### Channel lemmas -/

/-- Sending a list of messages into a channel whose Receiver is alive
always succeeds and appends the messages to the buffer in order. -/
theorem sendAll_ok {α : Type} (ms : List α) : ∀ c : Channel α,
    c.receiverAlive = true →
    sendAll c ms = Except.ok { c with buffer := c.buffer ++ ms } := by
  induction ms with
  | nil => intro c h; simp [sendAll]
  | cons m ms ih =>
    intro c h
    have hsend : c.send m = Except.ok { c with buffer := c.buffer ++ [m] } := by
      simp [Channel.send, h]
    have halive : ({ c with buffer := c.buffer ++ [m] } : Channel α).receiverAlive = true := h
    simp only [sendAll, hsend]
    rw [ih _ halive]
    simp

/-- Receiving as many messages as the buffer holds yields exactly the
buffer contents in FIFO order, whatever the sender count and receiver
liveness. -/
theorem recvK_buffer {α : Type} (ms : List α) : ∀ (snd : Nat) (rcv : Bool),
    recvK (Channel.mk ms snd rcv) ms.length = some ms := by
  induction ms with
  | nil => intro snd rcv; simp [recvK]
  | cons m ms ih =>
    intro snd rcv
    simp only [List.length_cons, recvK, Channel.recv]
    rw [ih snd rcv]
    simp

/-- Claim C3: for a channel with exactly one Sender and one Receiver,
sending any message sequence in order and then calling recv as many times
yields exactly that sequence in order; in particular the recover_channel
scenario, a spawned unit sending the string hi followed by the main recv,
yields hi. -/
theorem channel_fifo {α : Type} (ms : List α) :
    (∃ c2 : Channel α, sendAll (Channel.new α) ms = Except.ok c2 ∧
      recvK c2 ms.length = some ms) ∧
    recover_channel_run = some "hi" := by
  refine ⟨⟨Channel.mk ms 1 true, ?_, ?_⟩, rfl⟩
  · rw [sendAll_ok ms (Channel.new α) rfl]
    simp [Channel.new]
  · exact recvK_buffer ms 1 true

/-- Claim C4: on a channel whose Senders have all been dropped and whose
buffer is empty, the next recv returns the RecvClosed failure rather than
blocking. -/
theorem recv_closed_no_block {α : Type} (c : Channel α)
    (hs : c.senders = 0) (hb : c.buffer = []) :
    c.recv = RecvResult.closed := by
  obtain ⟨buf, snd, rcv⟩ := c
  simp only at hs hb
  subst hs hb
  simp [Channel.recv]

/-- Witness for C4 at a concrete closed empty channel. -/
theorem recv_closed_no_block_witness :
    (Channel.mk ([] : List Nat) 0 true).recv = RecvResult.closed :=
  recv_closed_no_block (Channel.mk ([] : List Nat) 0 true) rfl rfl

/-- Claim C5: every send made after the unique Receiver has been dropped
returns the SendError failure rather than succeeding; and a send never
silently discards a message, since a successful send appends it to the
buffer. -/
theorem send_after_receiver_dropped {α : Type} (c : Channel α) (m : α)
    (h : c.receiverAlive = false) :
    c.send m = Except.error SendError.sendError ∧
    ∀ c2 : Channel α, c.send m = Except.ok c2 → c2.buffer = c.buffer ++ [m] := by
  constructor
  · simp [Channel.send, h]
  · intro c2 hok
    simp only [Channel.send] at hok
    split at hok
    · cases hok; rfl
    · cases hok

/-- Witness for C5 at a concrete channel whose Receiver was dropped. -/
theorem send_after_receiver_dropped_witness :
    (Channel.mk ([] : List Nat) 1 false).send 42 = Except.error SendError.sendError ∧
    ∀ c2 : Channel Nat,
      (Channel.mk ([] : List Nat) 1 false).send 42 = Except.ok c2 →
      c2.buffer = [] ++ [42] :=
  send_after_receiver_dropped (Channel.mk ([] : List Nat) 1 false) 42 rfl

/-- Claim C6: join on a handle whose task completed normally returns the
produced value; join on a handle whose task panicked or aborted returns
the JoinError failure; joining moves the handle out of its owning slot, so
the value is returned exactly once and a second join, hitting the
consumed slot, is a runtime error. -/
theorem join_semantics {α : Type} (v : α) :
    (JoinHandle.mk (Completion.completed v)).join = Except.ok v ∧
    (JoinHandle.mk (Completion.panicked : Completion α)).join
      = Except.error JoinError.joinError ∧
    joinOwned (some (JoinHandle.mk (Completion.completed v)))
      = (Except.ok v, none) ∧
    (joinOwned (none : Option (JoinHandle α))).1
      = Except.error JoinError.joinError :=
  ⟨rfl, rfl, rfl, rfl⟩

/-- Claim C9: after the inner scope of call_mutex, which locks the mutex
initialized with 5 and assigns 6 through the guard, the stored value is 6
and the lock is free again, so the final debug print observes the value 6
without blocking. -/
theorem call_mutex_final :
    call_mutex = some (Mutex.mk 6 false) ∧
    Option.bind call_mutex mutexDebugView = some 6 :=
  ⟨rfl, rfl⟩

/-- Claim C10: in move_channel the Receiver is dropped unread when the
driver returns; on the schedule where that drop precedes the spawned send
the send fails with SendError and the unwrap panics the spawned unit while
the driver still returns normally, and on the other schedule the send
succeeds. -/
theorem move_channel_schedules :
    move_channel_run true = (SpawnedOutcome.unwrapPanicked, true) ∧
    move_channel_run false = (SpawnedOutcome.sentOk, true) :=
  ⟨rfl, rfl⟩

/-- Counterexample for C7 as stated: the driver spawn_thread creates a
handle and terminates without joining it. -/
theorem spawn_thread_abandons_handle :
    driverJoinsAll spawn_thread_actions = false := by decide

/-- Claim C7 amended: the drivers waiting_thread, handle_thread and
atom_ref join every handle they create before reading final state or
terminating, but spawn_thread, move_channel and recover_channel each
spawn a unit whose handle is never joined. -/
theorem drivers_join_discipline :
    driverJoinsAll waiting_thread_actions = true ∧
    driverJoinsAll handle_thread_actions = true ∧
    driverJoinsAll atom_ref_actions = true ∧
    driverJoinsAll spawn_thread_actions = false ∧
    driverJoinsAll move_channel_actions = false ∧
    driverJoinsAll recover_channel_actions = false := by decide

/-! ### Invariants of the interleaving semantics -/

/-- Extensionality for system states, component by component. -/
theorem SysState.ext' {n : Nat} {s t : SysState n}
    (hc : s.counter = t.counter) (hl : s.lockHolder = t.lockHolder)
    (ht : ∀ j, s.threads j = t.threads j) : s = t := by
  obtain ⟨sc, sl, sth⟩ := s
  obtain ⟨tc, tl, tth⟩ := t
  simp only [SysState.mk.injEq]
  exact ⟨hc, hl, funext ht⟩

/-- Transport reachability along an equality of states. -/
theorem Reachable.cast {n c0 : Nat} {s t : SysState n}
    (h : Reachable n c0 s) (he : s = t) : Reachable n c0 t :=
  he ▸ h

/-- Lock invariant: in every reachable state, a unit is inside its
critical section exactly when it is the current lock holder. -/
theorem reach_lock_iff {n c0 : Nat} {s : SysState n} (h : Reachable n c0 s) :
    ∀ i : Fin n, (s.threads i = TState.inCS ↔ s.lockHolder = some i) := by
  induction h with
  | init => intro i; simp [initState]
  | @step s t hr hstep ih =>
    cases hstep with
    | acquire i hfree hready =>
      intro j
      show (if j = i then TState.inCS else s.threads j) = TState.inCS
        ↔ (some i : Option (Fin n)) = some j
      by_cases hj : j = i
      · subst hj; simp
      · rw [if_neg hj]
        constructor
        · intro hcs
          have h2 := (ih j).mp hcs
          rw [hfree] at h2
          exact Option.noConfusion h2
        · intro hsome
          exact absurd (Option.some.inj hsome).symm hj
    | releaseInc i hhold hcs =>
      intro j
      show (if j = i then TState.finished else s.threads j) = TState.inCS
        ↔ (none : Option (Fin n)) = some j
      by_cases hj : j = i
      · subst hj; simp
      · rw [if_neg hj]
        constructor
        · intro hjcs
          have h2 := (ih j).mp hjcs
          rw [hhold] at h2
          exact absurd (Option.some.inj h2).symm hj
        · intro hnone; exact Option.noConfusion hnone
    | releasePanic i hhold hcs =>
      intro j
      show (if j = i then TState.panicked else s.threads j) = TState.inCS
        ↔ (none : Option (Fin n)) = some j
      by_cases hj : j = i
      · subst hj; simp
      · rw [if_neg hj]
        constructor
        · intro hjcs
          have h2 := (ih j).mp hjcs
          rw [hhold] at h2
          exact absurd (Option.some.inj h2).symm hj
        · intro hnone; exact Option.noConfusion hnone

/-- Counter invariant: in every reachable state the counter equals the
initial value plus the number of units that completed their increment. -/
theorem reach_counter {n c0 : Nat} {s : SysState n} (h : Reachable n c0 s) :
    s.counter = c0 + doneCount s := by
  induction h with
  | init => simp [initState, doneCount]
  | @step s t hr hstep ih =>
    cases hstep with
    | acquire i hfree hready =>
      show s.counter = c0 + (Finset.univ.filter
        (fun j : Fin n => (if j = i then TState.inCS else s.threads j) = TState.finished)).card
      have hset : (Finset.univ.filter
            (fun j : Fin n => (if j = i then TState.inCS else s.threads j) = TState.finished))
          = Finset.univ.filter (fun j : Fin n => s.threads j = TState.finished) := by
        apply Finset.filter_congr
        intro j _
        by_cases hj : j = i
        · subst hj; simp [hready]
        · simp [hj]
      rw [hset]
      exact ih
    | releaseInc i hhold hcs =>
      show s.counter + 1 = c0 + (Finset.univ.filter
        (fun j : Fin n => (if j = i then TState.finished else s.threads j) = TState.finished)).card
      have hset : (Finset.univ.filter
            (fun j : Fin n => (if j = i then TState.finished else s.threads j) = TState.finished))
          = insert i (Finset.univ.filter (fun j : Fin n => s.threads j = TState.finished)) := by
        ext j
        simp only [Finset.mem_filter, Finset.mem_univ, true_and, Finset.mem_insert]
        by_cases hj : j = i
        · subst hj; simp
        · simp [hj]
      have hnotmem : i ∉ Finset.univ.filter (fun j : Fin n => s.threads j = TState.finished) := by
        simp [hcs]
      rw [hset, Finset.card_insert_of_not_mem hnotmem]
      have : s.counter = c0 + doneCount s := ih
      unfold doneCount at this
      omega
    | releasePanic i hhold hcs =>
      show s.counter = c0 + (Finset.univ.filter
        (fun j : Fin n => (if j = i then TState.panicked else s.threads j) = TState.finished)).card
      have hset : (Finset.univ.filter
            (fun j : Fin n => (if j = i then TState.panicked else s.threads j) = TState.finished))
          = Finset.univ.filter (fun j : Fin n => s.threads j = TState.finished) := by
        apply Finset.filter_congr
        intro j _
        by_cases hj : j = i
        · subst hj; simp [hcs]
        · simp [hj]
      rw [hset]
      exact ih

/-- When every unit has completed normally, the completed count is n. -/
theorem doneCount_of_all {n : Nat} {s : SysState n}
    (h : ∀ i : Fin n, s.threads i = TState.finished) : doneCount s = n := by
  have : Finset.univ.filter (fun i : Fin n => s.threads i = TState.finished)
      = Finset.univ := by
    apply Finset.filter_true_of_mem
    intro i _
    exact h i
  simp [doneCount, this]

/-- The sequentially completed states are reachable: unit k acquires the
free lock, increments, and releases, moving seqState k to seqState k+1. -/
theorem seqState_reachable (n c0 : Nat) :
    ∀ k : Nat, k ≤ n → Reachable n c0 (seqState n c0 k) := by
  intro k
  induction k with
  | zero =>
    intro _
    have hth : (fun j : Fin n => if (j : Nat) < 0 then TState.finished else TState.notStarted)
        = (fun _ : Fin n => TState.notStarted) := by
      funext j; simp
    have heq : seqState n c0 0 = initState n c0 := by
      simp [seqState, initState, hth]
    rw [heq]
    exact Reachable.init
  | succ k ih =>
    intro hk1
    have hkn : k < n := hk1
    have hk : k ≤ n := Nat.le_of_lt hkn
    have h0 : Reachable n c0 (seqState n c0 k) := ih hk
    have hready : (seqState n c0 k).threads ⟨k, hkn⟩ = TState.notStarted := by
      simp [seqState]
    have h1 := Reachable.step h0 (Step.acquire (seqState n c0 k) ⟨k, hkn⟩ rfl hready)
    have hcs : (if (⟨k, hkn⟩ : Fin n) = ⟨k, hkn⟩ then TState.inCS
        else (seqState n c0 k).threads ⟨k, hkn⟩) = TState.inCS := by
      simp
    have h2 := Reachable.step h1 (Step.releaseInc _ ⟨k, hkn⟩ rfl hcs)
    refine Reachable.cast h2 (SysState.ext' ?_ ?_ ?_)
    · rfl
    · rfl
    · intro j
      show (if j = (⟨k, hkn⟩ : Fin n) then TState.finished
          else if j = (⟨k, hkn⟩ : Fin n) then TState.inCS
          else (seqState n c0 k).threads j)
        = (seqState n c0 (k + 1)).threads j
      by_cases hj : j = (⟨k, hkn⟩ : Fin n)
      · subst hj
        simp [seqState, Nat.lt_succ_self]
      · have hjv : (j : Nat) ≠ k := by
          intro hv
          exact hj (Fin.ext hv)
        have hiff : ((j : Nat) < k + 1) ↔ ((j : Nat) < k) := by omega
        simp [hj, seqState, hiff]

/-- Completion lemma shared by the counter claims: a reachable state in
which every unit has completed normally carries counter c0 + n. -/
theorem reach_counter_all_done {n c0 : Nat} {s : SysState n}
    (h : Reachable n c0 s) (hdone : ∀ i : Fin n, s.threads i = TState.finished) :
    s.counter = c0 + n := by
  rw [reach_counter h, doneCount_of_all hdone]

/-- Claim C2: for every number of units n and every initial counter value,
after any interleaving in which all n units have completed their locked
increment, the counter equals the initial value plus n; no increment is
lost. -/
theorem counter_no_lost_updates (n c0 : Nat) (s : SysState n)
    (h : Reachable n c0 s) (hdone : ∀ i : Fin n, s.threads i = TState.finished) :
    s.counter = c0 + n :=
  reach_counter_all_done h hdone

/-- Witness for C2: three units run to completion sequentially from
initial counter value 5 and the final counter is 5 + 3. -/
theorem counter_no_lost_updates_witness :
    (∀ i : Fin 3, (seqState 3 5 3).threads i = TState.finished) ∧
    (seqState 3 5 3).counter = 5 + 3 :=
  ⟨by decide, counter_no_lost_updates 3 5 (seqState 3 5 3)
    (seqState_reachable 3 5 3 (by decide)) (by decide)⟩

/-- Claim C1: in atom_ref, with 10 units each incrementing the shared
counter initialized at 0 under the lock, every interleaving in which all
10 units completed ends with the counter at 10, and the driver prints the
final result line Result: 10. -/
theorem atom_ref_result (s : SysState 10) (h : Reachable 10 0 s)
    (hdone : ∀ i : Fin 10, s.threads i = TState.finished) :
    s.counter = 10 ∧ resultLine s.counter = "Result: 10" := by
  have hc : s.counter = 10 := reach_counter_all_done h hdone
  refine ⟨hc, ?_⟩
  rw [hc]
  decide

/-- Witness for C1: the ten units run to completion sequentially and the
driver observes counter 10 and prints Result: 10. -/
theorem atom_ref_result_witness :
    (∀ i : Fin 10, (seqState 10 0 10).threads i = TState.finished) ∧
    (seqState 10 0 10).counter = 10 ∧
    resultLine (seqState 10 0 10).counter = "Result: 10" :=
  ⟨by decide, atom_ref_result (seqState 10 0 10)
    (seqState_reachable 10 0 10 (by decide)) (by decide)⟩

/-- Claim C8: in every reachable state at most one unit is inside the
critical section, and no unit that has exited its critical section,
normally or by panic, still holds the lock: the guard drop released it on
both exit paths, so the lock can be acquired again. -/
theorem mutex_exclusion_and_release (n c0 : Nat) (s : SysState n)
    (h : Reachable n c0 s) :
    (∀ i j : Fin n, s.threads i = TState.inCS → s.threads j = TState.inCS → i = j) ∧
    (∀ i : Fin n, s.threads i = TState.finished ∨ s.threads i = TState.panicked →
      s.lockHolder ≠ some i) := by
  have hiff := reach_lock_iff h
  constructor
  · intro i j hi hj
    have h1 := (hiff i).mp hi
    have h2 := (hiff j).mp hj
    exact Option.some.inj (h1.symm.trans h2)
  · intro i hexit hhold
    have hcs := (hiff i).mpr hhold
    cases hexit with
    | inl hfin => rw [hfin] at hcs; exact TState.noConfusion hcs
    | inr hpan => rw [hpan] at hcs; exact TState.noConfusion hcs

/-- Witness for C8: a one-unit execution acquires the lock and then
panics inside its critical section; in the reached state the lock has
been released by the unwinding guard drop and mutual exclusion holds. -/
theorem mutex_exclusion_and_release_witness :
    (∀ i j : Fin 1, panicState.threads i = TState.inCS →
      panicState.threads j = TState.inCS → i = j) ∧
    (∀ i : Fin 1, panicState.threads i = TState.finished ∨
      panicState.threads i = TState.panicked →
      panicState.lockHolder ≠ some i) := by
  have h0 : Reachable 1 0 (initState 1 0) := Reachable.init
  have h1 := Reachable.step h0
    (Step.acquire (initState 1 0) ⟨0, Nat.zero_lt_one⟩ rfl rfl)
  have hcs : (if (⟨0, Nat.zero_lt_one⟩ : Fin 1) = ⟨0, Nat.zero_lt_one⟩ then TState.inCS
      else (initState 1 0).threads ⟨0, Nat.zero_lt_one⟩) = TState.inCS := by
    simp
  have h2 := Reachable.step h1
    (Step.releasePanic _ ⟨0, Nat.zero_lt_one⟩ rfl hcs)
  have h3 : Reachable 1 0 panicState := by
    refine Reachable.cast h2 (SysState.ext' rfl rfl ?_)
    intro j
    show (if j = (⟨0, Nat.zero_lt_one⟩ : Fin 1) then TState.panicked
        else if j = (⟨0, Nat.zero_lt_one⟩ : Fin 1) then TState.inCS
        else (initState 1 0).threads j) = TState.panicked
    have hj0 : j = (⟨0, Nat.zero_lt_one⟩ : Fin 1) :=
      Fin.ext (Nat.lt_one_iff.mp j.isLt)
    subst hj0
    simp
  exact mutex_exclusion_and_release 1 0 panicState h3

end Ch16
